import Mathlib

/-!
Verification of the tree selection/expansion engine of refinitiv-ui and of
its small collaborators (EmailField validation gate, CDNLoader response
cache, IconLoader CDN prefix handling).

The `TreeNode` handle (src/packages/elements/src/tree/managers/tree-node.ts),
`CDNLoader` (src/packages/utils/src/loader/cdn-loader.ts), `IconLoader` and
`EmailField` are embedded from the source.  The `TreeManager` and `Composer`
are not part of the repository's files, so their behaviour (tri-state
aggregation in relationship mode, expansion flags, handle caching, the
selection timestamp) is modelled from the specification, as noted on each
definition.
-/

/-- Tri-state checked state of an item, from the enum referenced by
tree-node.ts: CHECKED (1), UNCHECKED (0), INDETERMINATE (-1). -/
inductive CheckedState where
  | CHECKED
  | UNCHECKED
  | INDETERMINATE
deriving DecidableEq, Repr

/-- Numeric values documented on getCheckedState in tree-node.ts. -/
def CheckedState.toInt : CheckedState → Int
  | .CHECKED => 1
  | .UNCHECKED => 0
  | .INDETERMINATE => -1

/-- Modelled from the spec: a tree item for relationship-mode aggregation.
A raw item carries a selected seed and an ordered children list; an item
with an empty children list is a leaf. -/
inductive TreeItem where
  | mk (sel : Bool) (children : List TreeItem)
deriving Repr

/-- The ordered children of an item. -/
def TreeItem.children : TreeItem → List TreeItem
  | .mk _ cs => cs

/-- The selected seed of an item (meaningful for leaves). -/
def TreeItem.sel : TreeItem → Bool
  | .mk s _ => s

/-- Modelled from the spec: the aggregation rule for an item with children
in relationship mode — CHECKED iff all children CHECKED, UNCHECKED iff all
children UNCHECKED, otherwise INDETERMINATE. -/
def aggregate (states : List CheckedState) : CheckedState :=
  if states.all (fun s => s == CheckedState.CHECKED) then CheckedState.CHECKED
  else if states.all (fun s => s == CheckedState.UNCHECKED) then CheckedState.UNCHECKED
  else CheckedState.INDETERMINATE

mutual
/-- Modelled from the spec: the stored checked state of an item under eager
relationship-mode propagation — a leaf reads its own flag, an item with
children holds the aggregation of its children's states. -/
def getCheckedState : TreeItem → CheckedState
  | .mk sel [] => if sel then .CHECKED else .UNCHECKED
  | .mk _ (c :: cs) => aggregate (childStates (c :: cs))

/-- States of a list of items, in order. -/
def childStates : List TreeItem → List CheckedState
  | [] => []
  | t :: ts => getCheckedState t :: childStates ts
end

mutual
/-- Selected flags of the descendant leaves of an item's subtree (the item
itself when it is a leaf), in pre-order. -/
def leaves : TreeItem → List Bool
  | .mk sel [] => [sel]
  | .mk _ (c :: cs) => leavesList (c :: cs)

/-- Concatenated leaf flags of a list of subtrees. -/
def leavesList : List TreeItem → List Bool
  | [] => []
  | t :: ts => leaves t ++ leavesList ts
end

/-- Structural induction for the nested tree type: to prove a property of
every item it is enough to prove it for an item given it for every child. -/
theorem TreeItem.recAux {P : TreeItem → Prop}
    (h : ∀ sel cs, (∀ c ∈ cs, P c) → P (TreeItem.mk sel cs)) : ∀ t, P t
  | .mk sel cs => h sel cs (fun c hc => TreeItem.recAux h c)
termination_by t => sizeOf t
decreasing_by
  have := List.sizeOf_lt_of_mem hc
  simp only [TreeItem.mk.sizeOf_spec]
  omega

theorem childStates_eq_map (ts : List TreeItem) :
    childStates ts = ts.map getCheckedState := by
  induction ts with
  | nil => rfl
  | cons t ts ih => simp [childStates, ih]

theorem aggregate_eq_checked (ss : List CheckedState) :
    aggregate ss = .CHECKED ↔ ∀ s ∈ ss, s = CheckedState.CHECKED := by
  unfold aggregate
  split
  · simp_all [List.all_eq_true]
    assumption
  · split <;> simp_all [List.all_eq_true]

theorem aggregate_eq_unchecked (ss : List CheckedState) :
    aggregate ss = .UNCHECKED ↔
      (¬ ∀ s ∈ ss, s = CheckedState.CHECKED) ∧ ∀ s ∈ ss, s = CheckedState.UNCHECKED := by
  unfold aggregate
  split
  · simp_all [List.all_eq_true]
  · split <;> simp_all [List.all_eq_true]
    assumption

theorem aggregate_eq_indeterminate (ss : List CheckedState) :
    aggregate ss = .INDETERMINATE ↔
      (¬ ∀ s ∈ ss, s = CheckedState.CHECKED) ∧ ¬ ∀ s ∈ ss, s = CheckedState.UNCHECKED := by
  unfold aggregate
  split
  · simp_all [List.all_eq_true]
  · split <;> simp_all [List.all_eq_true]
    assumption

theorem leavesList_mem (b : Bool) (ts : List TreeItem) :
    b ∈ leavesList ts ↔ ∃ t ∈ ts, b ∈ leaves t := by
  induction ts with
  | nil => simp [leavesList]
  | cons t ts ih => simp [leavesList, ih]

theorem leaves_ne_nil (t : TreeItem) : leaves t ≠ [] := by
  induction t using TreeItem.recAux with
  | h sel cs ih =>
    cases cs with
    | nil => simp [leaves]
    | cons c cs =>
      simp only [leaves, leavesList]
      intro hcontra
      exact ih c (by simp) (List.append_eq_nil.mp hcontra).1

/-- Leaf characterization of the relationship-mode state: an item's stored
state is CHECKED iff every leaf of its subtree is checked, and UNCHECKED iff
every leaf of its subtree is unchecked. -/
theorem checkedState_leaves (t : TreeItem) :
    (getCheckedState t = .CHECKED ↔ ∀ b ∈ leaves t, b = true) ∧
      (getCheckedState t = .UNCHECKED ↔ ∀ b ∈ leaves t, b = false) := by
  induction t using TreeItem.recAux with
  | h sel cs ih =>
    cases cs with
    | nil => cases sel <;> simp [getCheckedState, leaves]
    | cons c cs =>
      have hmap := childStates_eq_map (c :: cs)
      constructor
      · rw [show getCheckedState (.mk sel (c :: cs)) = aggregate (childStates (c :: cs)) from rfl]
        rw [aggregate_eq_checked, hmap]
        simp only [List.mem_map, forall_exists_index, and_imp,
          forall_apply_eq_imp_iff₂]
        constructor
        · intro h b hb
          rw [show leaves (.mk sel (c :: cs)) = leavesList (c :: cs) from rfl,
            leavesList_mem] at hb
          obtain ⟨u, hu, hbu⟩ := hb
          exact ((ih u hu).1.mp (h u hu)) b hbu
        · intro h u hu
          refine (ih u hu).1.mpr ?_
          intro b hb
          refine h b ?_
          rw [show leaves (.mk sel (c :: cs)) = leavesList (c :: cs) from rfl,
            leavesList_mem]
          exact ⟨u, hu, hb⟩
      · rw [show getCheckedState (.mk sel (c :: cs)) = aggregate (childStates (c :: cs)) from rfl]
        rw [aggregate_eq_unchecked, hmap]
        simp only [List.mem_map, forall_exists_index, and_imp,
          forall_apply_eq_imp_iff₂]
        constructor
        · intro h b hb
          rw [show leaves (.mk sel (c :: cs)) = leavesList (c :: cs) from rfl,
            leavesList_mem] at hb
          obtain ⟨u, hu, hbu⟩ := hb
          exact ((ih u hu).2.mp (h.2 u hu)) b hbu
        · intro h
          have hall : ∀ u ∈ c :: cs, getCheckedState u = CheckedState.UNCHECKED := by
            intro u hu
            refine (ih u hu).2.mpr ?_
            intro b hb
            refine h b ?_
            rw [show leaves (.mk sel (c :: cs)) = leavesList (c :: cs) from rfl,
              leavesList_mem]
            exact ⟨u, hu, hb⟩
          refine ⟨?_, hall⟩
          intro hc
          have h1 := hc c (by simp)
          have h2 := hall c (by simp)
          rw [h1] at h2
          exact CheckedState.noConfusion h2

theorem checkedState_trichotomy (t : TreeItem) :
    getCheckedState t = .CHECKED ∨ getCheckedState t = .UNCHECKED ∨
      getCheckedState t = .INDETERMINATE := by
  cases h : getCheckedState t <;> simp

theorem indeterminate_iff_not_checked_unchecked (s : CheckedState) :
    s = .INDETERMINATE ↔ s ≠ .CHECKED ∧ s ≠ .UNCHECKED := by
  cases s <;> simp

/-- C1: in relationship mode, an item with children stores CHECKED iff all
of its children store CHECKED, UNCHECKED iff all of its children store
UNCHECKED, and INDETERMINATE otherwise; and the state of any item — in
particular a root — is CHECKED iff every leaf of its subtree is checked,
UNCHECKED iff every leaf is unchecked, and INDETERMINATE otherwise. -/
theorem c1_relationship_aggregation (t : TreeItem) :
    (t.children ≠ [] →
      (getCheckedState t = .CHECKED ↔
        ∀ c ∈ t.children, getCheckedState c = .CHECKED) ∧
      (getCheckedState t = .UNCHECKED ↔
        ∀ c ∈ t.children, getCheckedState c = .UNCHECKED) ∧
      (getCheckedState t = .INDETERMINATE ↔
        (¬ ∀ c ∈ t.children, getCheckedState c = .CHECKED) ∧
        ¬ ∀ c ∈ t.children, getCheckedState c = .UNCHECKED)) ∧
    (getCheckedState t = .CHECKED ↔ ∀ b ∈ leaves t, b = true) ∧
    (getCheckedState t = .UNCHECKED ↔ ∀ b ∈ leaves t, b = false) ∧
    (getCheckedState t = .INDETERMINATE ↔
      (¬ ∀ b ∈ leaves t, b = true) ∧ ¬ ∀ b ∈ leaves t, b = false) := by
  have hleaf := checkedState_leaves t
  refine ⟨?_, hleaf.1, hleaf.2, ?_⟩
  · intro hne
    obtain ⟨sel, cs⟩ := t
    cases cs with
    | nil => exact absurd rfl hne
    | cons c cs =>
      have hstate :
          getCheckedState (.mk sel (c :: cs)) = aggregate (childStates (c :: cs)) := rfl
      have hch : TreeItem.children (.mk sel (c :: cs)) = c :: cs := rfl
      have hC :
          getCheckedState (TreeItem.mk sel (c :: cs)) = .CHECKED ↔
            ∀ u ∈ c :: cs, getCheckedState u = .CHECKED := by
        rw [hstate, aggregate_eq_checked, childStates_eq_map]
        simp only [List.mem_map, forall_exists_index, and_imp,
          forall_apply_eq_imp_iff₂]
      have hU :
          getCheckedState (TreeItem.mk sel (c :: cs)) = .UNCHECKED ↔
            ∀ u ∈ c :: cs, getCheckedState u = .UNCHECKED := by
        rw [hstate, aggregate_eq_unchecked, childStates_eq_map]
        simp only [List.mem_map, forall_exists_index, and_imp,
          forall_apply_eq_imp_iff₂]
        constructor
        · exact fun h => h.2
        · intro h
          refine ⟨?_, h⟩
          intro hc
          have h1 := hc c (by simp)
          have h2 := h c (by simp)
          rw [h1] at h2
          exact CheckedState.noConfusion h2
      have hI :
          getCheckedState (TreeItem.mk sel (c :: cs)) = .INDETERMINATE ↔
            (¬ ∀ u ∈ c :: cs, getCheckedState u = .CHECKED) ∧
            ¬ ∀ u ∈ c :: cs, getCheckedState u = .UNCHECKED := by
        rw [indeterminate_iff_not_checked_unchecked]
        simp only [ne_eq, hC, hU]
      rw [hch]
      exact ⟨hC, hU, hI⟩
  · rw [indeterminate_iff_not_checked_unchecked]
    simp only [ne_eq, hleaf.1, hleaf.2]

/-- Concrete tree for the C1 witness: a root with one checked and one
unchecked leaf (the spec scenario giving INDETERMINATE), and a root with
two checked leaves (giving CHECKED). -/
def treeW : TreeItem := .mk false [.mk true [], .mk false []]

theorem c1_relationship_aggregation_witness :
    getCheckedState treeW = CheckedState.INDETERMINATE ∧
      getCheckedState (TreeItem.mk false [.mk true [], .mk true []]) =
        CheckedState.CHECKED := by
  constructor
  · exact ((c1_relationship_aggregation treeW).2.2.2).mpr (by decide)
  · exact ((c1_relationship_aggregation
      (TreeItem.mk false [.mk true [], .mk true []])).2.1).mpr (by decide)

/-! ## Manager state and the TreeNode handle

The raw item (a caller-owned property bag: icon, label, value, readonly,
highlighted, disabled, hidden, selectedAt), the manager's selection /
expansion / handle maps and the mutators checkItem, uncheckItem,
expandItem, collapseItem and getTreeNode are modelled from the spec (the
TreeManager and Composer sources are not part of the repository's files);
the TreeNode accessors delegate exactly as tree-node.ts writes them. -/

/-- A raw data item: every field optional, absence modelled as none. -/
structure RawItem where
  icon : Option String
  label : Option String
  value : Option String
  readonly : Option Bool
  highlighted : Option Bool
  disabled : Option Bool
  hidden : Option Bool
  selectedAt : Option Nat
deriving DecidableEq, Repr

/-- A raw item with every field unset. -/
def emptyRawItem : RawItem := ⟨none, none, none, none, none, none, none, none⟩

/-- JavaScript double-negation coercion of an optional boolean field:
undefined reads as false. -/
def truthy : Option Bool → Bool
  | none => false
  | some b => b

/-- Modelled from the spec: the manager's authoritative state — the items
by identity, the per-item checked and expanded maps, the item-to-handle
map with the next fresh handle id, and the selection-timestamp clock. -/
structure ManagerState where
  items : List (Nat × RawItem)
  checkedMap : List (Nat × CheckedState)
  expandedMap : List (Nat × Bool)
  nodeMap : List (Nat × Nat)
  nextHandle : Nat
  clock : Nat
deriving DecidableEq, Repr

/-- The raw item of an identity (an unknown identity reads as an item with
every field unset, so orphaned handles fail gracefully). -/
def getRawItem (st : ManagerState) (x : Nat) : RawItem :=
  (st.items.lookup x).getD emptyRawItem

/-- Overwrite one raw item's fields through the composer. -/
def setRawItem (st : ManagerState) (x : Nat) (f : RawItem → RawItem) : ManagerState :=
  { st with items := (x, f (getRawItem st x)) :: st.items }

/-- Modelled from the spec: pure read of the stored checked state (an item
never touched reads UNCHECKED). -/
def getItemCheckedState (st : ManagerState) (x : Nat) : CheckedState :=
  (st.checkedMap.lookup x).getD .UNCHECKED

/-- Modelled from the spec: checkItem sets the targeted item CHECKED
unconditionally (checkability is not enforced at the mutation boundary)
and stamps the selection timestamp on the directly-targeted item. -/
def checkItem (st : ManagerState) (x : Nat) : ManagerState :=
  let st1 := setRawItem st x (fun it => { it with selectedAt := some st.clock })
  { st1 with checkedMap := (x, .CHECKED) :: st1.checkedMap, clock := st.clock + 1 }

/-- Modelled from the spec: uncheckItem sets the targeted item UNCHECKED
unconditionally and clears the selection timestamp. -/
def uncheckItem (st : ManagerState) (x : Nat) : ManagerState :=
  let st1 := setRawItem st x (fun it => { it with selectedAt := none })
  { st1 with checkedMap := (x, .UNCHECKED) :: st1.checkedMap }

/-- Modelled from the spec: an item is checkable iff it is neither disabled
nor readonly. -/
def isItemCheckable (st : ManagerState) (x : Nat) : Bool :=
  !(truthy (getRawItem st x).disabled || truthy (getRawItem st x).readonly)

/-- Modelled from the spec: per-item expansion flag (an item never touched
reads collapsed). -/
def isItemExpanded (st : ManagerState) (x : Nat) : Bool :=
  (st.expandedMap.lookup x).getD false

/-- Modelled from the spec: expandItem sets the expansion flag. -/
def expandItem (st : ManagerState) (x : Nat) : ManagerState :=
  { st with expandedMap := (x, true) :: st.expandedMap }

/-- Modelled from the spec: collapseItem clears the expansion flag. -/
def collapseItem (st : ManagerState) (x : Nat) : ManagerState :=
  { st with expandedMap := (x, false) :: st.expandedMap }

/-- Modelled from the spec: getTreeNode returns the cached handle for an
item, creating a fresh one on first use and caching it in the manager's
item-to-handle map. -/
def getTreeNode (st : ManagerState) (x : Nat) : Nat × ManagerState :=
  match st.nodeMap.lookup x with
  | some h => (h, st)
  | none =>
      (st.nextHandle,
        { st with nodeMap := (x, st.nextHandle) :: st.nodeMap,
                  nextHandle := st.nextHandle + 1 })

/-- Modelled from the spec: updateItem is a pure re-render notification and
changes no manager state. -/
def updateItem (st : ManagerState) (_x : Nat) : ManagerState := st

namespace TreeNode

/-! TreeNode accessors, embedded from tree-node.ts: every accessor
delegates to the manager or to a composer property read/write on the
handle's item; the handle itself stores nothing. -/

/-- tree-node.ts readonly getter: double-negated composer read. -/
def readonlyGet (st : ManagerState) (x : Nat) : Bool :=
  truthy (getRawItem st x).readonly

/-- tree-node.ts highlighted getter: double-negated composer read. -/
def highlightedGet (st : ManagerState) (x : Nat) : Bool :=
  truthy (getRawItem st x).highlighted

/-- tree-node.ts disabled getter: double-negated composer read. -/
def disabledGet (st : ManagerState) (x : Nat) : Bool :=
  truthy (getRawItem st x).disabled

/-- tree-node.ts hidden getter: double-negated composer read; the property
has no setter. -/
def hiddenGet (st : ManagerState) (x : Nat) : Bool :=
  truthy (getRawItem st x).hidden

/-- tree-node.ts selectedAt getter: plain composer read; no setter. -/
def selectedAtGet (st : ManagerState) (x : Nat) : Option Nat :=
  (getRawItem st x).selectedAt

/-- tree-node.ts icon getter. -/
def iconGet (st : ManagerState) (x : Nat) : Option String :=
  (getRawItem st x).icon

/-- tree-node.ts icon setter: composer property write. -/
def iconSet (st : ManagerState) (x : Nat) (v : Option String) : ManagerState :=
  setRawItem st x (fun it => { it with icon := v })

/-- tree-node.ts label setter: composer property write. -/
def labelSet (st : ManagerState) (x : Nat) (v : Option String) : ManagerState :=
  setRawItem st x (fun it => { it with label := v })

/-- tree-node.ts value setter: composer property write. -/
def valueSet (st : ManagerState) (x : Nat) (v : Option String) : ManagerState :=
  setRawItem st x (fun it => { it with value := v })

/-- tree-node.ts readonly setter: composer property write. -/
def readonlySet (st : ManagerState) (x : Nat) (v : Bool) : ManagerState :=
  setRawItem st x (fun it => { it with readonly := some v })

/-- tree-node.ts highlighted setter: composer property write. -/
def highlightedSet (st : ManagerState) (x : Nat) (v : Bool) : ManagerState :=
  setRawItem st x (fun it => { it with highlighted := some v })

/-- tree-node.ts disabled setter: composer property write. -/
def disabledSet (st : ManagerState) (x : Nat) (v : Bool) : ManagerState :=
  setRawItem st x (fun it => { it with disabled := some v })

/-- tree-node.ts expanded getter: delegates to isItemExpanded. -/
def expandedGet (st : ManagerState) (x : Nat) : Bool :=
  isItemExpanded st x

/-- tree-node.ts expanded setter: true calls expandItem, false calls
collapseItem. -/
def expandedSet (st : ManagerState) (x : Nat) (v : Bool) : ManagerState :=
  if v then expandItem st x else collapseItem st x

/-- tree-node.ts selected getter: reads the manager state and compares it
with CHECKED. -/
def selectedGet (st : ManagerState) (x : Nat) : Bool :=
  getItemCheckedState st x == CheckedState.CHECKED

/-- tree-node.ts selected setter: true calls checkItem, false calls
uncheckItem. -/
def selectedSet (st : ManagerState) (x : Nat) (v : Bool) : ManagerState :=
  if v then checkItem st x else uncheckItem st x

/-- tree-node.ts isSelectable: delegates to the manager's isItemCheckable. -/
def isSelectable (st : ManagerState) (x : Nat) : Bool :=
  isItemCheckable st x

/-- tree-node.ts rerender: delegates to updateItem. -/
def rerender (st : ManagerState) (x : Nat) : ManagerState :=
  updateItem st x

end TreeNode

/-- The state-mutating operations a TreeNode handle exposes, one per
property setter of tree-node.ts plus rerender: the handle has no setter
for hidden or for selectedAt. -/
inductive TreeNodeOp where
  | setIcon (v : Option String)
  | setLabel (v : Option String)
  | setValue (v : Option String)
  | setReadonly (v : Bool)
  | setHighlighted (v : Bool)
  | setDisabled (v : Bool)
  | setExpanded (v : Bool)
  | setSelected (v : Bool)
  | rerenderOp
deriving DecidableEq, Repr

/-- Run a TreeNode operation on item x. -/
def applyOp (st : ManagerState) (x : Nat) : TreeNodeOp → ManagerState
  | .setIcon v => TreeNode.iconSet st x v
  | .setLabel v => TreeNode.labelSet st x v
  | .setValue v => TreeNode.valueSet st x v
  | .setReadonly v => TreeNode.readonlySet st x v
  | .setHighlighted v => TreeNode.highlightedSet st x v
  | .setDisabled v => TreeNode.disabledSet st x v
  | .setExpanded v => TreeNode.expandedSet st x v
  | .setSelected v => TreeNode.selectedSet st x v
  | .rerenderOp => TreeNode.rerender st x

/-- The empty manager state. -/
def stEmpty : ManagerState := ⟨[], [], [], [], 0, 0⟩

/-- A manager state holding one raw item (identity 0) with no field set. -/
def stItem0 : ManagerState := ⟨[(0, emptyRawItem)], [], [], [], 0, 0⟩

/-- A manager state holding one disabled raw item (identity 0). -/
def stDisabled : ManagerState :=
  ⟨[(0, { emptyRawItem with disabled := some true })], [], [], [], 0, 0⟩

theorem getRawItem_setRawItem (st : ManagerState) (x : Nat) (f : RawItem → RawItem)
    (y : Nat) :
    getRawItem (setRawItem st x f) y =
      if y = x then f (getRawItem st x) else getRawItem st y := by
  by_cases h : y = x
  · subst h
    simp [getRawItem, setRawItem, List.lookup]
  · have hb : (y == x) = false := beq_eq_false_iff_ne.mpr h
    simp [getRawItem, setRawItem, List.lookup, hb, h]

/-- C2: checkability is advisory — an item is not checkable exactly when it
is disabled or readonly (and isSelectable is that same answer), yet
checkItem sets the stored state to CHECKED regardless. -/
theorem c2_checkability_advisory (st : ManagerState) (x : Nat) :
    (isItemCheckable st x = false ↔
      (truthy (getRawItem st x).disabled = true ∨
        truthy (getRawItem st x).readonly = true)) ∧
    TreeNode.isSelectable st x = isItemCheckable st x ∧
    getItemCheckedState (checkItem st x) x = CheckedState.CHECKED ∧
    (truthy (getRawItem st x).disabled = false ∧
        truthy (getRawItem st x).readonly = false →
      isItemCheckable st x = true) := by
  refine ⟨?_, rfl, ?_, ?_⟩
  · cases h1 : truthy (getRawItem st x).disabled <;>
      cases h2 : truthy (getRawItem st x).readonly <;>
        simp [isItemCheckable, h1, h2]
  · simp [checkItem, getItemCheckedState, List.lookup]
  · intro h
    simp [isItemCheckable, h.1, h.2]

theorem c2_checkability_advisory_witness :
    isItemCheckable stDisabled 0 = false ∧
      getItemCheckedState (checkItem stDisabled 0) 0 = CheckedState.CHECKED ∧
      isItemCheckable stItem0 0 = true := by
  have h := c2_checkability_advisory stDisabled 0
  have h0 := c2_checkability_advisory stItem0 0
  exact ⟨h.1.mpr (Or.inl (by decide)), h.2.2.1, h0.2.2.2 (by decide)⟩

/-- C3: getTreeNode is idempotent with respect to handle identity — calling
it again with the same item returns the same handle and leaves the manager
unchanged, the handle being created lazily on first use and cached in the
item-to-handle map. -/
theorem c3_getTreeNode_idempotent (st : ManagerState) (x : Nat) :
    (getTreeNode (getTreeNode st x).2 x).1 = (getTreeNode st x).1 ∧
    (getTreeNode (getTreeNode st x).2 x).2 = (getTreeNode st x).2 ∧
    (st.nodeMap.lookup x = none →
      (getTreeNode st x).2.nodeMap.lookup x = some (getTreeNode st x).1) := by
  cases h : st.nodeMap.lookup x with
  | some hdl => simp [getTreeNode, h]
  | none => simp [getTreeNode, h, List.lookup]

theorem c3_getTreeNode_idempotent_witness :
    (getTreeNode (getTreeNode stEmpty 0).2 0).1 = (getTreeNode stEmpty 0).1 ∧
      (getTreeNode stEmpty 0).2.nodeMap.lookup 0 = some (getTreeNode stEmpty 0).1 := by
  have h := c3_getTreeNode_idempotent stEmpty 0
  exact ⟨h.1, h.2.2 (by decide)⟩

/-- C4 as claimed fails: starting from an expanded item, expandItem then
collapseItem leaves the item collapsed, not in its pre-expand state. -/
theorem c4_counterexample :
    isItemExpanded (collapseItem (expandItem (expandItem stEmpty 0) 0) 0) 0 ≠
      isItemExpanded (expandItem stEmpty 0) 0 := by decide

/-- C4 amended: expandItem then collapseItem always leaves the item
collapsed; this equals the pre-expand value exactly when the item was not
expanded before the expandItem call. -/
theorem c4_expand_collapse (st : ManagerState) (x : Nat) :
    isItemExpanded (collapseItem (expandItem st x) x) x = false ∧
    (isItemExpanded (collapseItem (expandItem st x) x) x = isItemExpanded st x ↔
      isItemExpanded st x = false) := by
  have h : isItemExpanded (collapseItem (expandItem st x) x) x = false := by
    simp [isItemExpanded, collapseItem, expandItem, List.lookup]
  refine ⟨h, ?_⟩
  rw [h]
  exact eq_comm

theorem c4_expand_collapse_witness :
    isItemExpanded (collapseItem (expandItem stEmpty 0) 0) 0 = false ∧
      isItemExpanded (collapseItem (expandItem stEmpty 0) 0) 0 =
        isItemExpanded stEmpty 0 := by
  have h := c4_expand_collapse stEmpty 0
  exact ⟨h.1, h.2.mpr (by decide)⟩

/-- C5: the handle's selected getter is true exactly when the manager holds
CHECKED for the item (INDETERMINATE and UNCHECKED read as false), and the
setter delegates true to checkItem and false to uncheckItem. -/
theorem c5_selected_accessor (st : ManagerState) (x : Nat) :
    (TreeNode.selectedGet st x = true ↔
      getItemCheckedState st x = CheckedState.CHECKED) ∧
    (getItemCheckedState st x = CheckedState.UNCHECKED ∨
        getItemCheckedState st x = CheckedState.INDETERMINATE →
      TreeNode.selectedGet st x = false) ∧
    TreeNode.selectedSet st x true = checkItem st x ∧
    TreeNode.selectedSet st x false = uncheckItem st x := by
  refine ⟨?_, ?_, rfl, rfl⟩
  · simp [TreeNode.selectedGet]
  · intro h
    cases h <;> simp [TreeNode.selectedGet, *]

theorem c5_selected_accessor_witness :
    TreeNode.selectedGet stEmpty 0 = false ∧
      TreeNode.selectedSet stEmpty 0 true = checkItem stEmpty 0 := by
  have h := c5_selected_accessor stEmpty 0
  exact ⟨h.2.1 (Or.inl (by decide)), h.2.2.1⟩

/-- C6: the handle's readonly, disabled, highlighted and hidden getters are
the boolean coercion of the composer read, so an absent field reads false. -/
theorem c6_boolean_getters (st : ManagerState) (x : Nat) :
    TreeNode.readonlyGet st x = truthy (getRawItem st x).readonly ∧
    TreeNode.disabledGet st x = truthy (getRawItem st x).disabled ∧
    TreeNode.highlightedGet st x = truthy (getRawItem st x).highlighted ∧
    TreeNode.hiddenGet st x = truthy (getRawItem st x).hidden ∧
    ((getRawItem st x).readonly = none → TreeNode.readonlyGet st x = false) ∧
    ((getRawItem st x).disabled = none → TreeNode.disabledGet st x = false) ∧
    ((getRawItem st x).highlighted = none → TreeNode.highlightedGet st x = false) ∧
    ((getRawItem st x).hidden = none → TreeNode.hiddenGet st x = false) := by
  refine ⟨rfl, rfl, rfl, rfl, ?_, ?_, ?_, ?_⟩ <;>
    intro h <;>
      simp [TreeNode.readonlyGet, TreeNode.disabledGet, TreeNode.highlightedGet,
        TreeNode.hiddenGet, h, truthy]

theorem c6_boolean_getters_witness :
    TreeNode.readonlyGet stItem0 0 = false ∧ TreeNode.disabledGet stItem0 0 = false ∧
      TreeNode.highlightedGet stItem0 0 = false ∧ TreeNode.hiddenGet stItem0 0 = false := by
  have h := c6_boolean_getters stItem0 0
  exact ⟨h.2.2.2.2.1 (by decide), h.2.2.2.2.2.1 (by decide),
    h.2.2.2.2.2.2.1 (by decide), h.2.2.2.2.2.2.2 (by decide)⟩

/-- C7 as claimed fails: the handle exposes no setter for selectedAt, yet
assigning selected = true (a TreeNode operation) reaches checkItem, which
stamps the selection timestamp onto the raw item's selectedAt field. -/
theorem c7_counterexample :
    TreeNode.selectedAtGet (applyOp stItem0 0 (TreeNodeOp.setSelected true)) 0 ≠
      TreeNode.selectedAtGet stItem0 0 := by decide


theorem getRawItem_checkItem (st : ManagerState) (x y : Nat) :
    getRawItem (checkItem st x) y =
      if y = x then { getRawItem st x with selectedAt := some st.clock }
      else getRawItem st y := by
  have h : getRawItem (checkItem st x) y =
      getRawItem (setRawItem st x (fun it => { it with selectedAt := some st.clock })) y :=
    rfl
  rw [h, getRawItem_setRawItem]

theorem getRawItem_uncheckItem (st : ManagerState) (x y : Nat) :
    getRawItem (uncheckItem st x) y =
      if y = x then { getRawItem st x with selectedAt := none }
      else getRawItem st y := by
  have h : getRawItem (uncheckItem st x) y =
      getRawItem (setRawItem st x (fun it => { it with selectedAt := none })) y :=
    rfl
  rw [h, getRawItem_setRawItem]

/-- C7 amended: no TreeNode operation ever writes the hidden field of any
raw item; every TreeNode operation other than the selected setter leaves
every selectedAt field unchanged (the selected setter delegates to
checkItem/uncheckItem, which stamp or clear the timestamp — the handle
still exposes no setter for hidden or selectedAt); and the icon, label,
value, readonly, highlighted and disabled properties are writable through
the handle. -/
theorem c7_hidden_selectedAt_frame (st : ManagerState) (x y : Nat) (op : TreeNodeOp) :
    (getRawItem (applyOp st x op) y).hidden = (getRawItem st y).hidden ∧
    ((∀ v, op ≠ TreeNodeOp.setSelected v) →
      (getRawItem (applyOp st x op) y).selectedAt = (getRawItem st y).selectedAt) ∧
    (∀ v, (getRawItem (TreeNode.iconSet st x v) x).icon = v) ∧
    (∀ v, (getRawItem (TreeNode.labelSet st x v) x).label = v) ∧
    (∀ v, (getRawItem (TreeNode.valueSet st x v) x).value = v) ∧
    (∀ v, (getRawItem (TreeNode.readonlySet st x v) x).readonly = some v) ∧
    (∀ v, (getRawItem (TreeNode.highlightedSet st x v) x).highlighted = some v) ∧
    (∀ v, (getRawItem (TreeNode.disabledSet st x v) x).disabled = some v) := by
  refine ⟨?_, ?_, ?_, ?_, ?_, ?_, ?_, ?_⟩
  · cases op with
    | setIcon v =>
        simp only [applyOp, TreeNode.iconSet, getRawItem_setRawItem]
        split <;> simp_all
    | setLabel v =>
        simp only [applyOp, TreeNode.labelSet, getRawItem_setRawItem]
        split <;> simp_all
    | setValue v =>
        simp only [applyOp, TreeNode.valueSet, getRawItem_setRawItem]
        split <;> simp_all
    | setReadonly v =>
        simp only [applyOp, TreeNode.readonlySet, getRawItem_setRawItem]
        split <;> simp_all
    | setHighlighted v =>
        simp only [applyOp, TreeNode.highlightedSet, getRawItem_setRawItem]
        split <;> simp_all
    | setDisabled v =>
        simp only [applyOp, TreeNode.disabledSet, getRawItem_setRawItem]
        split <;> simp_all
    | setExpanded v =>
        simp only [applyOp, TreeNode.expandedSet]
        cases v <;> rfl
    | setSelected v =>
        simp only [applyOp, TreeNode.selectedSet]
        cases v
        · rw [show (if false = true then checkItem st x else uncheckItem st x) =
              uncheckItem st x from rfl, getRawItem_uncheckItem]
          split <;> simp_all
        · rw [show (if true = true then checkItem st x else uncheckItem st x) =
              checkItem st x from rfl, getRawItem_checkItem]
          split <;> simp_all
    | rerenderOp => rfl
  · intro hne
    cases op with
    | setIcon v =>
        simp only [applyOp, TreeNode.iconSet, getRawItem_setRawItem]
        split <;> simp_all
    | setLabel v =>
        simp only [applyOp, TreeNode.labelSet, getRawItem_setRawItem]
        split <;> simp_all
    | setValue v =>
        simp only [applyOp, TreeNode.valueSet, getRawItem_setRawItem]
        split <;> simp_all
    | setReadonly v =>
        simp only [applyOp, TreeNode.readonlySet, getRawItem_setRawItem]
        split <;> simp_all
    | setHighlighted v =>
        simp only [applyOp, TreeNode.highlightedSet, getRawItem_setRawItem]
        split <;> simp_all
    | setDisabled v =>
        simp only [applyOp, TreeNode.disabledSet, getRawItem_setRawItem]
        split <;> simp_all
    | setExpanded v =>
        simp only [applyOp, TreeNode.expandedSet]
        cases v <;> rfl
    | setSelected v => exact absurd rfl (hne v)
    | rerenderOp => rfl
  · intro v
    simp [TreeNode.iconSet, getRawItem_setRawItem]
  · intro v
    simp [TreeNode.labelSet, getRawItem_setRawItem]
  · intro v
    simp [TreeNode.valueSet, getRawItem_setRawItem]
  · intro v
    simp [TreeNode.readonlySet, getRawItem_setRawItem]
  · intro v
    simp [TreeNode.highlightedSet, getRawItem_setRawItem]
  · intro v
    simp [TreeNode.disabledSet, getRawItem_setRawItem]

theorem c7_hidden_selectedAt_frame_witness :
    (getRawItem (applyOp stItem0 0 (TreeNodeOp.setReadonly true)) 0).selectedAt =
        (getRawItem stItem0 0).selectedAt ∧
      (getRawItem (applyOp stItem0 0 (TreeNodeOp.setSelected true)) 0).hidden =
        (getRawItem stItem0 0).hidden := by
  have h1 := c7_hidden_selectedAt_frame stItem0 0 0 (TreeNodeOp.setReadonly true)
  have h2 := c7_hidden_selectedAt_frame stItem0 0 0 (TreeNodeOp.setSelected true)
  exact ⟨h1.2.1 (by intro v h; cases h), h2.1⟩

/-! ## EmailField (src/unnamed/part_001)

Only the fields shouldValidate reads are modelled; a TypeScript null is
none, an assigned string or number is some. -/

/-- The EmailField properties involved in validation gating, with the
declared defaults multiple = false, pattern = null, maxLength = null,
minLength = null. -/
structure EmailField where
  multiple : Bool
  pattern : Option String
  maxLength : Option Int
  minLength : Option Int
deriving DecidableEq, Repr

/-- An EmailField with no validation constraint configured: every property
at its declared default. -/
def defaultEmailField : EmailField := ⟨false, none, none, none⟩

/-- EmailField.shouldValidate, embedded from part_001 lines 93-98:
hasMaxLength is maxLength !== null, hasMinLength is minLength !== null,
hasPattern is pattern !== '' (a null pattern is not the empty string). -/
def shouldValidate (e : EmailField) : Bool :=
  let hasMaxLength := e.maxLength.isSome
  let hasMinLength := e.minLength.isSome
  let hasPattern := decide (e.pattern ≠ some "")
  hasMaxLength || hasMinLength || hasPattern

/-- C8: shouldValidate is true iff maxLength is not null, or minLength is
not null, or pattern is not the empty string; since pattern defaults to
null and null is not the empty string, an EmailField with no constraint
configured still answers true. -/
theorem c8_shouldValidate (e : EmailField) :
    (shouldValidate e = true ↔
      (e.maxLength ≠ none ∨ e.minLength ≠ none ∨ e.pattern ≠ some "")) ∧
    defaultEmailField.pattern = none ∧
    defaultEmailField.maxLength = none ∧
    defaultEmailField.minLength = none ∧
    shouldValidate defaultEmailField = true := by
  refine ⟨?_, rfl, rfl, rfl, by decide⟩
  simp [shouldValidate, Option.isSome_iff_ne_none]
  tauto

theorem c8_shouldValidate_witness :
    shouldValidate defaultEmailField = true ∧
      shouldValidate ⟨false, some "", none, none⟩ = false := by
  have h := c8_shouldValidate defaultEmailField
  have h2 := c8_shouldValidate ⟨false, some "", none, none⟩
  refine ⟨h.2.2.2.2, ?_⟩
  cases hv : shouldValidate ⟨false, some "", none, none⟩ with
  | false => rfl
  | true =>
      have := h2.1.mp hv
      simp at this

/-! ## CDNLoader (src/packages/utils/src/loader/cdn-loader.ts)

The response cache maps an src string to the Promise object created for
it; a Promise is identified by the id it was allocated with.  load src is
embedded from lines 94-101; the success and failure paths of loadContent
(lines 64-87) act on the cache as the events fetchSucceed (no cache
change) and fetchThrow (the catch branch deletes the entry). -/

/-- CDNLoader state: the response cache and the next fresh promise id. -/
structure CdnLoaderState where
  responseCache : List (String × Nat)
  nextPromise : Nat
deriving DecidableEq, Repr

/-- CDNLoader.load: an empty src returns undefined; otherwise a missing
cache entry is filled with a fresh fetch promise and the cached promise is
returned. -/
def cdnLoad (st : CdnLoaderState) (src : String) : Option Nat × CdnLoaderState :=
  if src = "" then (none, st)
  else
    match st.responseCache.lookup src with
    | some p => (some p, st)
    | none =>
        (some st.nextPromise,
          ⟨(src, st.nextPromise) :: st.responseCache, st.nextPromise + 1⟩)

/-- loadContent success path: the fetch resolved, the cache is untouched. -/
def fetchSucceed (st : CdnLoaderState) (_href : String) : CdnLoaderState := st

/-- loadContent catch branch: the fetch threw, so the entry for href is
deleted from the response cache. -/
def fetchThrow (st : CdnLoaderState) (href : String) : CdnLoaderState :=
  ⟨st.responseCache.filter (fun e => !(e.1 == href)), st.nextPromise⟩

theorem lookup_filter_ne (l : List (String × Nat)) (k : String) :
    (l.filter (fun e => !(e.1 == k))).lookup k = none := by
  induction l with
  | nil => rfl
  | cons e l ih =>
      by_cases h : e.1 = k
      · simp [List.filter, h, ih]
      · have hb : (e.1 == k) = false := beq_eq_false_iff_ne.mpr h
        have hb2 : (k == e.1) = false := beq_eq_false_iff_ne.mpr (Ne.symm h)
        simp [List.filter, hb, List.lookup, hb2, ih]

/-- C9: load with an empty src returns undefined and changes nothing; a
non-empty src is fetched once and the cached promise is returned unchanged
by every further load; a successful completion leaves the entry cached;
only a thrown fetch evicts the entry, after which a later load allocates a
fresh promise (starts a new fetch). -/
theorem c9_cdnLoad_cache (st : CdnLoaderState) (src : String) :
    cdnLoad st "" = (none, st) ∧
    (src ≠ "" →
      (cdnLoad (cdnLoad st src).2 src).1 = (cdnLoad st src).1 ∧
      (cdnLoad (cdnLoad st src).2 src).2 = (cdnLoad st src).2 ∧
      fetchSucceed (cdnLoad st src).2 src = (cdnLoad st src).2 ∧
      ((fetchThrow (cdnLoad st src).2 src).responseCache.lookup src = none) ∧
      (cdnLoad (fetchThrow (cdnLoad st src).2 src) src).1 =
        some (cdnLoad st src).2.nextPromise ∧
      (cdnLoad (fetchThrow (cdnLoad st src).2 src) src).2.nextPromise =
        (cdnLoad st src).2.nextPromise + 1) := by
  refine ⟨by simp [cdnLoad], ?_⟩
  intro hsrc
  cases h : st.responseCache.lookup src with
  | some p =>
      have h1 : cdnLoad st src = (some p, st) := by
        simp [cdnLoad, if_neg hsrc, h]
      rw [h1]
      refine ⟨by simp [h1], by simp [h1], rfl, lookup_filter_ne _ _, ?_, ?_⟩ <;>
        simp [cdnLoad, if_neg hsrc, fetchThrow, lookup_filter_ne]
  | none =>
      have h1 : cdnLoad st src =
          (some st.nextPromise,
            ⟨(src, st.nextPromise) :: st.responseCache, st.nextPromise + 1⟩) := by
        simp [cdnLoad, if_neg hsrc, h]
      rw [h1]
      have hl1 :
          List.lookup src
              ((src, st.nextPromise) :: st.responseCache) = some st.nextPromise := by
        simp [List.lookup]
      have h2 : cdnLoad
            (⟨(src, st.nextPromise) :: st.responseCache, st.nextPromise + 1⟩ :
              CdnLoaderState) src =
          (some st.nextPromise,
            ⟨(src, st.nextPromise) :: st.responseCache, st.nextPromise + 1⟩) := by
        simp [cdnLoad, if_neg hsrc, hl1]
      refine ⟨by simp [h2], by simp [h2], rfl, lookup_filter_ne _ _, ?_, ?_⟩ <;>
        simp [cdnLoad, if_neg hsrc, fetchThrow, lookup_filter_ne]

theorem c9_cdnLoad_cache_witness :
    ("icons.svg" ≠ "" ∧
      (cdnLoad (cdnLoad ⟨[], 0⟩ "icons.svg").2 "icons.svg").1 =
        (cdnLoad (⟨[], 0⟩ : CdnLoaderState) "icons.svg").1 ∧
      (cdnLoad (fetchThrow (cdnLoad ⟨[], 0⟩ "icons.svg").2 "icons.svg")
          "icons.svg").2.nextPromise =
        (cdnLoad (⟨[], 0⟩ : CdnLoaderState) "icons.svg").2.nextPromise + 1) := by
  have h := (c9_cdnLoad_cache ⟨[], 0⟩ "icons.svg").2 (by decide)
  exact ⟨by decide, h.1, h.2.2.2.2.2⟩

/-! ## IconLoader (src/unnamed/part_000)

IconLoader overrides setCdnPrefix with its own Deferred: a truthy prefix
resolves the deferred promise and sets the isPrefixSet flag; a falsy
prefix does nothing (in particular the deferred is never rejected, unlike
the base CDNLoader).  getSrc awaits the deferred prefix, so its result is
pending while the prefix promise is. -/

/-- The settlement state of a Deferred promise. -/
inductive DeferredState where
  | pending
  | resolved (value : String)
  | rejected (reason : String)
deriving DecidableEq, Repr

/-- Resolving a Deferred: settles a pending promise, a settled promise is
unchanged (JavaScript promise semantics). -/
def deferredResolve (d : DeferredState) (v : String) : DeferredState :=
  match d with
  | .pending => .resolved v
  | other => other

/-- Whether a deferred promise has been rejected. -/
def DeferredState.isRejected : DeferredState → Bool
  | .rejected _ => true
  | _ => false

/-- The observable outcome of an async computation. -/
inductive AsyncResult (α : Type) where
  | pending
  | ok (a : α)
  | failed (reason : String)
deriving DecidableEq, Repr

/-- IconLoader state: its own cdnPrefix deferred and the isPrefixSet flag. -/
structure IconLoaderState where
  cdnPrefixDeferred : DeferredState
  prefixSetFlag : Bool
deriving DecidableEq, Repr

/-- The freshly-constructed IconLoader: pending prefix, flag false. -/
def iconLoaderInit : IconLoaderState := ⟨.pending, false⟩

/-- IconLoader.setCdnPrefix, embedded from part_000 lines 43-48: a truthy
(non-empty) prefix resolves the deferred and sets the flag; a falsy one
does nothing. -/
def setCdnPrefix (st : IconLoaderState) (p : String) : IconLoaderState :=
  if p = "" then st
  else ⟨deferredResolve st.cdnPrefixDeferred p, true⟩

/-- IconLoader.isPrefixSet getter. -/
def isPrefixSet (st : IconLoaderState) : Bool := st.prefixSetFlag

/-- IconLoader.getSrc, embedded from part_000 lines 56-58: an empty icon
name returns the empty string at once; otherwise the result awaits the
deferred prefix and appends the name and the .svg extension. -/
def getSrc (st : IconLoaderState) (iconName : String) : AsyncResult String :=
  if iconName = "" then .ok ""
  else
    match st.cdnPrefixDeferred with
    | .pending => .pending
    | .resolved p => .ok (p ++ iconName ++ ".svg")
    | .rejected r => .failed r

/-- C10: setCdnPrefix with a non-empty prefix resolves the pending prefix
promise and sets isPrefixSet; with an empty string it does nothing (the
flag stays, the promise stays pending and is never rejected), so getSrc
for a non-empty icon name stays pending until a non-empty prefix is set,
and yields the completed source once one is. -/
theorem c10_setCdnPrefix (st : IconLoaderState) (p name : String) :
    setCdnPrefix st "" = st ∧
    (p ≠ "" → isPrefixSet (setCdnPrefix st p) = true) ∧
    (p ≠ "" → st.cdnPrefixDeferred = .pending →
      (setCdnPrefix st p).cdnPrefixDeferred = .resolved p) ∧
    (st.cdnPrefixDeferred.isRejected = false →
      (setCdnPrefix st p).cdnPrefixDeferred.isRejected = false) ∧
    (name ≠ "" → st.cdnPrefixDeferred = .pending → getSrc st name = .pending) ∧
    (name ≠ "" → p ≠ "" → st.cdnPrefixDeferred = .pending →
      getSrc (setCdnPrefix st p) name = .ok (p ++ name ++ ".svg")) := by
  refine ⟨by simp [setCdnPrefix], ?_, ?_, ?_, ?_, ?_⟩
  · intro hp
    simp [setCdnPrefix, if_neg hp, isPrefixSet]
  · intro hp hpend
    simp [setCdnPrefix, if_neg hp, hpend, deferredResolve]
  · intro hrej
    by_cases hp : p = ""
    · simp [setCdnPrefix, hp, hrej]
    · cases hd : st.cdnPrefixDeferred <;>
        simp_all [setCdnPrefix, if_neg hp, deferredResolve, DeferredState.isRejected]
  · intro hn hpend
    simp [getSrc, if_neg hn, hpend]
  · intro hn hp hpend
    simp [getSrc, if_neg hn, setCdnPrefix, if_neg hp, hpend, deferredResolve]

theorem c10_setCdnPrefix_witness :
    setCdnPrefix iconLoaderInit "" = iconLoaderInit ∧
      getSrc iconLoaderInit "heart" = AsyncResult.pending ∧
      isPrefixSet (setCdnPrefix iconLoaderInit "https://cdn/") = true ∧
      getSrc (setCdnPrefix iconLoaderInit "https://cdn/") "heart" =
        AsyncResult.ok "https://cdn/heart.svg" := by
  have h := c10_setCdnPrefix iconLoaderInit "https://cdn/" "heart"
  refine ⟨h.1, h.2.2.2.2.1 (by decide) rfl, h.2.1 (by decide), ?_⟩
  have h2 := h.2.2.2.2.2 (by decide) (by decide) rfl
  rw [h2]
  rfl
